import Mathlib

/-!
Shallow embedding of `pkg/jx/cmd/get_build_logs.go`: the catalog loaders
(`loadBuilds`, `loadPipelines`), the build resolver of `getProwBuildLog`,
the stage/container log traversal, and `waitForInitContainerToStart`,
together with theorems settling the specification claims about them.
-/

/-- Pod phase, mirroring `corev1.PodPhase` (Pending, Running, Succeeded, Failed, Unknown). -/
inductive PodPhase where
  | Pending
  | Running
  | Succeeded
  | Failed
  | Unknown
deriving DecidableEq

/-- Terminal state of a container, mirroring `corev1.ContainerStateTerminated`
(the fields read by the code: `ExitCode`, `Message`). -/
structure TerminatedState where
  exitCode : Int
  message : String
deriving DecidableEq

/-- Status of one init container, mirroring `corev1.ContainerStatus`: the fields
the code reads are the name, whether the container has started, and the optional
terminal state (`State.Terminated`, `nil` when not terminated). -/
structure ContainerStatus where
  name : String
  started : Bool
  terminated : Option TerminatedState
deriving DecidableEq

/-- An init container declaration, mirroring `corev1.Container` (only the name is read). -/
structure Container where
  name : String
deriving DecidableEq

/-- Pod snapshot, mirroring the parts of `corev1.Pod` the code reads:
`Name`, `Status.Phase`, `Spec.InitContainers`, `Status.InitContainerStatuses`.
The `pipeline`, `build` and `branch` fields model the pod metadata
(labels/annotations) that the external `builds.CreateBuildPodInfo` reads to
construct a Build Descriptor; that constructor is not part of this repository
slice, so the descriptor fields are carried on the pod model directly. -/
structure Pod where
  name : String
  phase : PodPhase
  initContainers : List Container
  initContainerStatuses : List ContainerStatus
  pipeline : String
  build : Nat
  branch : String
deriving DecidableEq

/-- Legacy Build Descriptor, mirroring `builds.BuildPodInfo`: pipeline name,
build number, branch, and the backing pod (a pointer in Go, hence optional). -/
structure BuildPodInfo where
  pipeline : String
  build : Nat
  branch : String
  pod : Option Pod
deriving DecidableEq

/-- Modelled from the spec: `builds.CreateBuildPodInfo` (package `pkg/builds`, not in
this repository slice) constructs the legacy Build Descriptor from a pod; per the
spec the descriptor exposes pipeline name, build number and branch, which the pod
model carries as metadata fields. -/
def CreateBuildPodInfo (pod : Pod) : BuildPodInfo :=
  { pipeline := pod.pipeline, build := pod.build, branch := pod.branch, pod := some pod }

/-- Display Name of a descriptor: `build.Pipeline + " #" + build.Build`
(the build number is modelled as `Nat` and rendered with `toString`). -/
def displayName (b : BuildPodInfo) : String :=
  b.pipeline ++ " #" ++ toString b.build

/-- Modelled from the spec: the comparison underlying `builds.SortBuildPodInfos`
(package `pkg/builds`, not in this repository slice): "newest build number first,
ties broken by pipeline name". -/
def buildBefore (a b : BuildPodInfo) : Bool :=
  b.build < a.build || (a.build == b.build && a.pipeline ≤ b.pipeline)

/-- Insertion step of the sort modelled for `builds.SortBuildPodInfos`. -/
def insertBuild (a : BuildPodInfo) : List BuildPodInfo → List BuildPodInfo
  | [] => [a]
  | x :: xs => if buildBefore a x then a :: x :: xs else x :: insertBuild a xs

/-- Modelled from the spec: `builds.SortBuildPodInfos` (not in this repository slice)
sorts descriptors newest build number first, ties broken by pipeline name;
realised as an insertion sort with comparison `buildBefore`. -/
def SortBuildPodInfos : List BuildPodInfo → List BuildPodInfo
  | [] => []
  | x :: xs => insertBuild x (SortBuildPodInfos xs)

/-- The filtering loop of `loadBuilds` (get_build_logs.go lines 454-463): keep only
pods with at least one init container, construct the descriptor, and keep it only
if the Selection Filter accepts it. `builds.BuildPodInfoFilter.BuildMatches` is
external to this slice, so the filter is abstracted as a boolean predicate. -/
def legacyBuildInfos (accepts : BuildPodInfo → Bool) (pods : List Pod) : List BuildPodInfo :=
  pods.filterMap (fun pod =>
    if 0 < pod.initContainers.length then
      let buildInfo := CreateBuildPodInfo pod
      if accepts buildInfo then some buildInfo else none
    else none)

/-- The result of a catalog load: ordered display names, default name, the exact
index (`buildMap`) and the latest-per-pipeline index (`pipelineMap`). Go's
`map[string]builds.BaseBuildInfo` is modelled as an association list where an
insert prepends and a lookup takes the first hit, so the last insert wins,
matching Go map overwrite semantics. -/
structure Catalog where
  names : List String
  defaultName : String
  buildMap : List (String × BuildPodInfo)
  pipelineMap : List (String × BuildPodInfo)
deriving DecidableEq

/-- Lookup in the association-list model of a Go map: first hit wins, so the most
recent insert is the visible one. -/
def mapGet (m : List (String × α)) (k : String) : Option α :=
  (m.find? (fun p => p.1 == k)).map (fun p => p.2)

/-- The empty catalog accumulator (`names := []`, empty maps, empty default). -/
def emptyCatalog : Catalog :=
  { names := [], defaultName := "", buildMap := [], pipelineMap := [] }

/-- One iteration of the catalog-building loop of `loadBuilds` (lines 469-478):
append the display name, insert into `buildMap` under the display name, insert
into `pipelineMap` under the bare pipeline name (blind overwrite), and overwrite
`defaultName` whenever the branch is "master" (no break). -/
def addBuild (c : Catalog) (b : BuildPodInfo) : Catalog :=
  let name := displayName b
  { names := c.names ++ [name]
    defaultName := if b.branch == "master" then name else c.defaultName
    buildMap := (name, b) :: c.buildMap
    pipelineMap := (b.pipeline, b) :: c.pipelineMap }

/-- `loadBuilds` (get_build_logs.go lines 442-480): filter the pods, sort the
descriptors, fail when none remain, then build names, indices and `defaultName`
by a single fold over the sorted descriptors. The initial `builds.GetBuildPods`
cluster query is external; its result is the `pods` argument. -/
def loadBuilds (accepts : BuildPodInfo → Bool) (pods : List Pod) : Except String Catalog :=
  let sorted := SortBuildPodInfos (legacyBuildInfos accepts pods)
  if sorted.isEmpty then
    Except.error "no knative builds have been triggered which match the current filter"
  else
    Except.ok (sorted.foldl addBuild emptyCatalog)

/-- Demo init container used by concrete catalog inputs. -/
def demoStep : Container := { name := "step" }

/-- Demo pod for pipeline "p" build 1 on branch master, with one init container. -/
def podBuild1 : Pod :=
  { name := "pod1", phase := PodPhase.Running, initContainers := [demoStep]
    initContainerStatuses := [], pipeline := "p", build := 1, branch := "master" }

/-- Demo pod for pipeline "p" build 2 on branch master, with one init container. -/
def podBuild2 : Pod :=
  { name := "pod2", phase := PodPhase.Running, initContainers := [demoStep]
    initContainerStatuses := [], pipeline := "p", build := 2, branch := "master" }

/-- The catalog `loadBuilds` produces on the two demo pods with a filter that
accepts everything: sorted newest first, both indices built by the fold. -/
def demoCatalog : Catalog :=
  { names := ["p #2", "p #1"]
    defaultName := "p #1"
    buildMap := [("p #1", CreateBuildPodInfo podBuild1), ("p #2", CreateBuildPodInfo podBuild2)]
    pipelineMap := [("p", CreateBuildPodInfo podBuild1), ("p", CreateBuildPodInfo podBuild2)] }


/-- One stage of a pipeline run, mirroring the parts of `tekton.StageInfo` the code
reads: the stage name (also standing in for `GetStageNameIncludingParents`, whose
parent-joining lives outside this slice) and the optionally-unset backing pod. -/
structure StageInfo where
  name : String
  pod : Option Pod
deriving DecidableEq

/-- Pipeline-run Build Descriptor, mirroring `tekton.PipelineRunInfo`: pipeline name,
build number, branch, and the ordered stages (`GetOrderedTaskStages` is external to
this slice; per the spec the stages are iterated "in their fixed declaration order",
which is the order of this list). -/
structure PipelineRunInfo where
  pipeline : String
  build : Nat
  branch : String
  stages : List StageInfo
deriving DecidableEq

/-- Display Name of a pipeline-run descriptor, same shape as the legacy one. -/
def prDisplayName (b : PipelineRunInfo) : String :=
  b.pipeline ++ " #" ++ toString b.build

/-- The descriptor-construction loop of `loadPipelines` (lines 495-505): construct a
`PipelineRunInfo` for each listed `PipelineRun` name via the external
`tekton.CreatePipelineRunInfo` (abstracted as the `create` argument, returning an
error, nothing, or a descriptor); on the first construction error the whole
collection stops and returns that error, otherwise `nil` results are skipped. -/
def collectPipelineRunInfos (create : String → Except String (Option PipelineRunInfo)) :
    List String → Except String (List PipelineRunInfo)
  | [] => Except.ok []
  | pr :: rest =>
    match create pr with
    | Except.error e =>
      Except.error ("Error creating PipelineRunInfo for PipelineRun " ++ pr ++ ": " ++ e)
    | Except.ok none => collectPipelineRunInfos create rest
    | Except.ok (some pri) =>
      match collectPipelineRunInfos create rest with
      | Except.error e => Except.error e
      | Except.ok l => Except.ok (pri :: l)

/-- Modelled from the spec: the comparison underlying `tekton.SortPipelineRunInfos`
(not in this repository slice): newest build number first, ties broken by pipeline name. -/
def prBefore (a b : PipelineRunInfo) : Bool :=
  b.build < a.build || (a.build == b.build && a.pipeline ≤ b.pipeline)

/-- Insertion step of the sort modelled for `tekton.SortPipelineRunInfos`. -/
def insertPR (a : PipelineRunInfo) : List PipelineRunInfo → List PipelineRunInfo
  | [] => [a]
  | x :: xs => if prBefore a x then a :: x :: xs else x :: insertPR a xs

/-- Modelled from the spec: `tekton.SortPipelineRunInfos` (not in this repository
slice), an insertion sort with comparison `prBefore`. -/
def SortPipelineRunInfos : List PipelineRunInfo → List PipelineRunInfo
  | [] => []
  | x :: xs => insertPR x (SortPipelineRunInfos xs)

/-- Catalog over pipeline-run descriptors. Go stores both descriptor variants in one
`map[string]builds.BaseBuildInfo` (an interface); the two variants are split into
two catalog types here, with identical construction. -/
structure PipeCatalog where
  names : List String
  defaultName : String
  buildMap : List (String × PipelineRunInfo)
  pipelineMap : List (String × PipelineRunInfo)
deriving DecidableEq

/-- The empty pipeline-run catalog accumulator. -/
def emptyPipeCatalog : PipeCatalog :=
  { names := [], defaultName := "", buildMap := [], pipelineMap := [] }

/-- One iteration of the catalog-building loop of `loadPipelines` (lines 511-520):
identical to the legacy loop, including the blind `pipelineMap` overwrite and the
break-less `defaultName` overwrite. -/
def addPipelineRun (c : PipeCatalog) (b : PipelineRunInfo) : PipeCatalog :=
  let name := prDisplayName b
  { names := c.names ++ [name]
    defaultName := if b.branch == "master" then name else c.defaultName
    buildMap := (name, b) :: c.buildMap
    pipelineMap := (b.pipeline, b) :: c.pipelineMap }

/-- `loadPipelines` (get_build_logs.go lines 482-522): list the `PipelineRun` names
(the initial cluster list call is external; its result is the `prNames` argument),
construct descriptors (aborting on the first construction error), sort, fail when
none remain, then build names, indices and `defaultName` by a single fold. -/
def loadPipelines (create : String → Except String (Option PipelineRunInfo))
    (prNames : List String) : Except String PipeCatalog :=
  match collectPipelineRunInfos create prNames with
  | Except.error e => Except.error e
  | Except.ok buildInfos =>
    let sorted := SortPipelineRunInfos buildInfos
    if sorted.isEmpty then
      Except.error "no Tekton pipelines have been triggered which match the current filter"
    else
      Except.ok (sorted.foldl addPipelineRun emptyPipeCatalog)

/-- Errors of the log traversal, one constructor per `return fmt.Errorf`/wrapped error
of `getProwBuildLog` and `waitForInitContainerToStart`:
`noPod` is "No Pod found for name %s"; `noInitContainers` is
"No InitContainers for Pod %s for build: %s"; `noStagePod` is
"No pod for stage %s in build %s exists yet" surviving the bounded retry;
`podQueryFailed` wraps "failed to find pod %s"; `podLoadFailed` wraps
"failed to load pod %s"; `streamFailed` is an error of the external log tail. -/
inductive LogErr where
  | noPod (buildName : String)
  | noInitContainers (podName buildName : String)
  | noStagePod (stageName : String)
  | podQueryFailed (podName : String)
  | podLoadFailed (podName : String)
  | streamFailed (msg : String)
deriving DecidableEq

/-- Observable events of the traversal, in emission order: `warn` is the
`log.Warnf("container %s failed with exit code %d: %s")` of the failure
propagation check; `waitStart` marks the call of `waitForInitContainerToStart`
for a unit (the begin of that unit's wait/stream); `stream` is the
`getStageLog`/`getPodLog` invocation of the external log tail for a unit
(legacy units carry an empty stage name). -/
inductive Event where
  | warn (containerName : String) (exitCode : Int) (message : String)
  | waitStart (podName : String) (idx : Nat)
  | stream (buildName stageName podName containerName : String)
deriving DecidableEq

/-- Modelled from the spec: `kube.HasInitContainerStarted` (package `pkg/kube`, not in
this repository slice); per the spec the wait returns immediately when "the target
container's status already shows started = true". -/
def HasInitContainerStarted (pod : Pod) (idx : Nat) : Bool :=
  match pod.initContainerStatuses.get? idx with
  | some s => s.started
  | none => false

/-- The failure propagation check (get_build_logs.go lines 346-355 and 383-392): for
unit index `i`, only when `i > 0` and `i` is below the length of the snapshot's
`InitContainerStatuses`, read status `i-1`; when it is terminated with non-zero exit
code, emit the warning carrying its name, exit code and message. -/
def failurePropagationCheck (pod : Pod) (i : Nat) : List Event :=
  if 0 < i then
    if h : i < pod.initContainerStatuses.length then
      match (pod.initContainerStatuses.get ⟨i - 1, by omega⟩).terminated with
      | some t =>
        if t.exitCode ≠ 0 then
          [Event.warn (pod.initContainerStatuses.get ⟨i - 1, by omega⟩).name t.exitCode t.message]
        else []
      | none => []
    else []
  else []

/-- The polling loop of `waitForInitContainerToStart` (lines 419-429): at each tick
re-read the pod (`getPodAt` gives the cluster's answer at each tick); a read error
returns it wrapped; a snapshot showing the container started returns that snapshot.
The source loop is unbounded, so it is modelled with an explicit `fuel` bound and
result `none` meaning "still polling after `fuel` ticks" (never a timeout error). -/
def pollForStart (getPodAt : Nat → String → Except String Pod) (name : String) (idx : Nat) :
    Nat → Nat → Option (Except LogErr Pod)
  | _, 0 => none
  | t, fuel + 1 =>
    match getPodAt t name with
    | Except.error _ => some (Except.error (LogErr.podLoadFailed name))
    | Except.ok p =>
      if HasInitContainerStarted p idx then some (Except.ok p)
      else pollForStart getPodAt name idx (t + 1) fuel

/-- `waitForInitContainerToStart` (lines 406-430): a pod already in `Failed` phase
returns immediately (the pod itself, no error); a container already started returns
immediately; otherwise poll (the fixed one-second sleep between polls is abstracted
into the tick index of `getPodAt`). -/
def waitForInitContainerToStart (getPodAt : Nat → String → Except String Pod) (pod : Pod)
    (idx : Nat) (fuel : Nat) : Option (Except LogErr Pod) :=
  if pod.phase = PodPhase.Failed then some (Except.ok pod)
  else if HasInitContainerStarted pod idx then some (Except.ok pod)
  else pollForStart getPodAt pod.name idx 0 fuel

/-- The per-container loop shared by both traversal variants (lines 341-364 and
378-401), over the remaining init containers with `i` the index of the first one:
re-read the pod by the stage pod's name (`cluster` models
`kubeClient.CoreV1().Pods(ns).Get`, constant over the traversal), run the failure
propagation check on the fresh snapshot, wait for the container to start, then
stream its log (`tailLogs` models `o.TailLogs`). The pair holds the emitted events
and the outcome; outcome `none` means a wait never returned within its fuel. -/
def runInitContainers (cluster : String → Except String Pod)
    (tailLogs : String → String → Except String Unit) (fuel : Nat)
    (buildName stageName podName : String) :
    Nat → List Container → List Event × Option (Except LogErr Unit)
  | _, [] => ([], some (Except.ok ()))
  | i, ic :: rest =>
    match cluster podName with
    | Except.error _ => ([], some (Except.error (LogErr.podQueryFailed podName)))
    | Except.ok pod =>
      let warns := failurePropagationCheck pod i
      match waitForInitContainerToStart (fun _ n => cluster n) pod i fuel with
      | none => (warns ++ [Event.waitStart podName i], none)
      | some (Except.error e) => (warns ++ [Event.waitStart podName i], some (Except.error e))
      | some (Except.ok pod2) =>
        match tailLogs pod2.name ic.name with
        | Except.error e =>
          (warns ++ [Event.waitStart podName i, Event.stream buildName stageName pod2.name ic.name],
            some (Except.error (LogErr.streamFailed e)))
        | Except.ok _ =>
          let next := runInitContainers cluster tailLogs fuel buildName stageName podName (i + 1) rest
          (warns ++ [Event.waitStart podName i, Event.stream buildName stageName pod2.name ic.name]
              ++ next.1,
            next.2)

/-- Resolution of a stage's pod (lines 317-336): an already-set pod is used as is;
otherwise the code retries `SetPodsForStageInfo` (external to this slice) under the
bounded `util.Retry`; that whole retry is modelled as the oracle `backfill` giving
its final outcome, `none` meaning the retry timed out with the
"No pod for stage ... exists yet" error. -/
def resolveStagePod (backfill : String → Option Pod) (stage : StageInfo) : Except LogErr Pod :=
  match stage.pod with
  | some p => Except.ok p
  | none =>
    match backfill stage.name with
    | some p => Except.ok p
    | none => Except.error (LogErr.noStagePod stage.name)

/-- The stage loop of the Tekton branch of `getProwBuildLog` (lines 313-365): iterate
the stages in order; resolve each stage's pod; fail with the `NoInitContainers`
error when the pod has no init containers; otherwise run the per-container loop,
continuing with the next stage only after it completed without error. -/
def runStages (cluster : String → Except String Pod)
    (tailLogs : String → String → Except String Unit) (backfill : String → Option Pod)
    (fuel : Nat) (buildName : String) :
    List StageInfo → List Event × Option (Except LogErr Unit)
  | [] => ([], some (Except.ok ()))
  | stage :: rest =>
    match resolveStagePod backfill stage with
    | Except.error e => ([], some (Except.error e))
    | Except.ok pod =>
      if pod.initContainers.isEmpty then
        ([], some (Except.error (LogErr.noInitContainers pod.name buildName)))
      else
        let first := runInitContainers cluster tailLogs fuel buildName stage.name pod.name 0
          pod.initContainers
        match first.2 with
        | some (Except.ok _) =>
          let next := runStages cluster tailLogs backfill fuel buildName rest
          (first.1 ++ next.1, next.2)
        | r => (first.1, r)

/-- The legacy branch of `getProwBuildLog` (lines 366-402): the descriptor's single
pod (failing when `nil`), the `NoInitContainers` check, then the same per-container
loop (with `getPodLog`, which has no stage name). -/
def runLegacy (cluster : String → Except String Pod)
    (tailLogs : String → String → Except String Unit) (fuel : Nat) (buildName : String)
    (b : BuildPodInfo) : List Event × Option (Except LogErr Unit) :=
  match b.pod with
  | none => ([], some (Except.error (LogErr.noPod buildName)))
  | some pod =>
    if pod.initContainers.isEmpty then
      ([], some (Except.error (LogErr.noInitContainers pod.name buildName)))
    else
      runInitContainers cluster tailLogs fuel buildName "" pod.name 0 pod.initContainers

/-- The (stage, container) units a trace visits, in order: one pair per `stream` event. -/
def unitsOf (trace : List Event) : List (String × String) :=
  trace.filterMap (fun e =>
    match e with
    | Event.stream _ stageName _ containerName => some (stageName, containerName)
    | _ => none)

/-- The expected event trace of the per-container loop on a fixed snapshot `p'`,
starting at unit index `i`: per unit, the failure propagation check's warnings,
the begin of its wait, and its stream, concatenated in unit order. -/
def traceFrom (p' : Pod) (buildName stageName podName : String) :
    Nat → List Container → List Event
  | _, [] => []
  | i, ic :: rest =>
    failurePropagationCheck p' i
      ++ [Event.waitStart podName i, Event.stream buildName stageName p'.name ic.name]
      ++ traceFrom p' buildName stageName podName (i + 1) rest

/-- The two-index lookup of `getProwBuildLog` (lines 269-276 and 291-297): the exact
index first; on a miss the latest-per-pipeline index, annotating the display suffix
`" #" + build` for subsequent logging. -/
def lookupBuild (c : Catalog) (name : String) : Option (BuildPodInfo × String) :=
  match mapGet c.buildMap name with
  | some b => some (b, "")
  | none =>
    match mapGet c.pipelineMap name with
    | some b => some (b, " #" ++ toString b.build)
    | none => none

/-- One attempt of the wait loop `f` of `getProwBuildLog` (lines 281-303): reload the
catalog (`loadAt` gives the load outcome at each tick), look the name up in both
indices, and fail with "No pipeline exists yet: %s" on a miss. -/
def attemptOnce (loadAt : Nat → Except String Catalog) (name : String) (t : Nat) :
    Except String (BuildPodInfo × String) :=
  match loadAt t with
  | Except.error e => Except.error e
  | Except.ok c =>
    match lookupBuild c name with
    | some r => Except.ok r
    | none => Except.error ("No pipeline exists yet: " ++ name)

/-- Modelled from the spec: `util.Retry(timeout, f)` (package `pkg/util`, not in this
repository slice); per the spec it retries `f` "at a fixed interval until either a
match appears or waitTimeout elapses". Modelled as `budget` further attempts after
the first, at ticks `t, t+1, ...`; on exhaustion the last attempt's error stands. -/
def retryLoop (f : Nat → Except String α) : Nat → Nat → Except String α
  | t, 0 => f t
  | t, budget + 1 =>
    match f t with
    | Except.ok a => Except.ok a
    | Except.error _ => retryLoop f (t + 1) budget

/-- The non-interactive resolution of `getProwBuildLog` (lines 268-311) for a caller
that supplied the identifier as an argument: the catalog indices are empty at that
point (they are only populated in the interactive branch), so the initial lookup
misses; with `wait` the reload loop runs under `util.Retry`, without it the
"No Pipeline found for name ..." error is immediate. -/
def resolveNonInteractive (loadAt : Nat → Except String Catalog) (wait : Bool)
    (budget : Nat) (name : String) : Except String (BuildPodInfo × String) :=
  if wait then retryLoop (attemptOnce loadAt name) 0 budget
  else Except.error ("No Pipeline found for name " ++ name ++ " in values: ")

/-! Helper lemmas. -/

theorem foldl_addBuild_defaultName (l : List BuildPodInfo) (c : Catalog) :
    (l.foldl addBuild c).defaultName =
      (((l.filter (fun b => b.branch == "master")).getLast?).map displayName).getD
        c.defaultName := by
  induction l generalizing c with
  | nil => simp
  | cons b l ih =>
    rw [List.foldl_cons, ih, List.filter_cons]
    by_cases hb : (b.branch == "master") = true
    · rw [if_pos hb]
      cases hl : l.filter (fun b => b.branch == "master") with
      | nil => simp [addBuild, hb]
      | cons x xs =>
        simp only [List.getLast?_cons_cons]
        cases hgl : (x :: xs).getLast? with
        | none => simp [List.getLast?_eq_none_iff] at hgl
        | some v => simp
    · rw [if_neg hb]
      simp [addBuild, hb]

theorem foldl_addPipelineRun_defaultName (l : List PipelineRunInfo) (c : PipeCatalog) :
    (l.foldl addPipelineRun c).defaultName =
      (((l.filter (fun b => b.branch == "master")).getLast?).map prDisplayName).getD
        c.defaultName := by
  induction l generalizing c with
  | nil => simp
  | cons b l ih =>
    rw [List.foldl_cons, ih, List.filter_cons]
    by_cases hb : (b.branch == "master") = true
    · rw [if_pos hb]
      cases hl : l.filter (fun b => b.branch == "master") with
      | nil => simp [addPipelineRun, hb]
      | cons x xs =>
        simp only [List.getLast?_cons_cons]
        cases hgl : (x :: xs).getLast? with
        | none => simp [List.getLast?_eq_none_iff] at hgl
        | some v => simp
    · rw [if_neg hb]
      simp [addPipelineRun, hb]

theorem foldl_addBuild_names (l : List BuildPodInfo) (c : Catalog) :
    (l.foldl addBuild c).names = c.names ++ l.map displayName := by
  induction l generalizing c with
  | nil => simp
  | cons b l ih => simp [ih, addBuild, List.append_assoc]

theorem foldl_addBuild_buildMap_mem (l : List BuildPodInfo) (c : Catalog) (k : String)
    (b : BuildPodInfo) (h : mapGet (l.foldl addBuild c).buildMap k = some b) :
    b ∈ l ∨ mapGet c.buildMap k = some b := by
  induction l generalizing c with
  | nil => exact Or.inr h
  | cons x l ih =>
    rw [List.foldl_cons] at h
    rcases ih _ h with hmem | hget
    · exact Or.inl (List.mem_cons_of_mem _ hmem)
    · unfold mapGet addBuild at hget
      rw [List.find?_cons] at hget
      split at hget
      · exact Or.inl (by simp_all)
      · exact Or.inr hget

theorem foldl_addBuild_pipelineMap_mem (l : List BuildPodInfo) (c : Catalog) (k : String)
    (b : BuildPodInfo) (h : mapGet (l.foldl addBuild c).pipelineMap k = some b) :
    b ∈ l ∨ mapGet c.pipelineMap k = some b := by
  induction l generalizing c with
  | nil => exact Or.inr h
  | cons x l ih =>
    rw [List.foldl_cons] at h
    rcases ih _ h with hmem | hget
    · exact Or.inl (List.mem_cons_of_mem _ hmem)
    · unfold mapGet addBuild at hget
      rw [List.find?_cons] at hget
      split at hget
      · exact Or.inl (by simp_all)
      · exact Or.inr hget

theorem mem_insertBuild (a x : BuildPodInfo) (l : List BuildPodInfo) :
    x ∈ insertBuild a l ↔ x = a ∨ x ∈ l := by
  induction l with
  | nil => simp [insertBuild]
  | cons y ys ih =>
    unfold insertBuild
    split
    · simp
    · simp [ih]
      tauto

theorem mem_SortBuildPodInfos (x : BuildPodInfo) (l : List BuildPodInfo)
    (h : x ∈ SortBuildPodInfos l) : x ∈ l := by
  induction l with
  | nil => simp [SortBuildPodInfos] at h
  | cons y ys ih =>
    unfold SortBuildPodInfos at h
    rcases (mem_insertBuild _ _ _).1 h with rfl | hmem
    · exact List.mem_cons_self _ _
    · exact List.mem_cons_of_mem _ (ih hmem)

theorem mem_legacyBuildInfos (accepts : BuildPodInfo → Bool) (pods : List Pod)
    (b : BuildPodInfo) (h : b ∈ legacyBuildInfos accepts pods) :
    ∃ p, b.pod = some p ∧ p.initContainers ≠ [] := by
  unfold legacyBuildInfos at h
  rcases List.mem_filterMap.1 h with ⟨pod, _, hpod⟩
  by_cases h0 : 0 < pod.initContainers.length
  · rw [if_pos h0] at hpod
    by_cases ha : accepts (CreateBuildPodInfo pod) = true
    · simp only [ha, if_true] at hpod
      cases hpod
      refine ⟨pod, rfl, fun hnil => ?_⟩
      rw [hnil] at h0
      simp at h0
    · simp [ha] at hpod
  · rw [if_neg h0] at hpod
    cases hpod




/-! Claim theorems: catalog loading. -/

/-- C1: the claim states that after loading, the latest-per-pipeline index maps each
pipeline name to the descriptor with the greatest build number (the first entry in
newest-first sort order). The code instead builds that index by blind overwrite
while iterating the newest-first sorted list, so the last-iterated (i.e. oldest)
descriptor survives: on a catalog holding builds 2 and 1 of pipeline "p", the index
returns build 1 although build 2 is in the catalog. -/
theorem loadBuilds_latestIndex_keeps_oldest :
    loadBuilds (fun _ => true) [podBuild1, podBuild2] = Except.ok demoCatalog
    ∧ (mapGet demoCatalog.pipelineMap "p").map (fun b => b.build) = some 1
    ∧ mapGet demoCatalog.buildMap "p #2" = some (CreateBuildPodInfo podBuild2)
    ∧ (CreateBuildPodInfo podBuild2).build = 2
    ∧ (1 : Nat) ≠ 2 :=
  ⟨rfl, rfl, rfl, rfl, by decide⟩

/-- Demo pipeline-run descriptor: pipeline "q" build 1 on branch master. -/
def demoPRI : PipelineRunInfo :=
  { pipeline := "q", build := 1, branch := "master", stages := [] }

/-- Demo pipeline-run descriptor: pipeline "q" build 2 on branch master. -/
def demoPRI2 : PipelineRunInfo :=
  { pipeline := "q", build := 2, branch := "master", stages := [] }

/-- Demo `CreatePipelineRunInfo` oracle yielding the two master pipeline runs. -/
def masterCreate : String → Except String (Option PipelineRunInfo) := fun pr =>
  if pr == "r2" then Except.ok (some demoPRI2) else Except.ok (some demoPRI)

/-- The catalog `loadPipelines` produces on the two demo pipeline runs: sorted newest
first, both indices built by the fold. -/
def demoPipeCatalog : PipeCatalog :=
  { names := ["q #2", "q #1"]
    defaultName := "q #1"
    buildMap := [("q #1", demoPRI), ("q #2", demoPRI2)]
    pipelineMap := [("q", demoPRI), ("q", demoPRI2)] }

/-- C2 (counterexample): the claim states that `defaultName` is the display name of
the first descriptor in sort order whose branch is "master". On a legacy catalog
with two master descriptors (builds 2 and 1 of pipeline "p", sorted newest first)
`loadBuilds` yields "p #1" — the last master descriptor — while the first one is
"p #2"; `loadPipelines` behaves identically on the two master pipeline runs of
pipeline "q". -/
theorem defaultName_not_first_master :
    loadBuilds (fun _ => true) [podBuild1, podBuild2] = Except.ok demoCatalog
    ∧ demoCatalog.defaultName = "p #1"
    ∧ ((SortBuildPodInfos (legacyBuildInfos (fun _ => true) [podBuild1, podBuild2])).find?
        (fun b => b.branch == "master")).map displayName = some "p #2"
    ∧ ("p #1" : String) ≠ "p #2"
    ∧ loadPipelines masterCreate ["r1", "r2"] = Except.ok demoPipeCatalog
    ∧ demoPipeCatalog.defaultName = "q #1"
    ∧ ((SortPipelineRunInfos [demoPRI, demoPRI2]).find?
        (fun b => b.branch == "master")).map prDisplayName = some "q #2"
    ∧ ("q #1" : String) ≠ "q #2" :=
  ⟨rfl, rfl, rfl, by decide, rfl, rfl, rfl, by decide⟩

/-- C2 (amended): for every non-empty filtered catalog — legacy or pipeline-run —
the `defaultName` returned by the load equals the display name of the LAST
descriptor in sort order whose branch equals "master" (both loops overwrite
without break), and the empty string when no descriptor has that branch. -/
theorem load_defaultName_last_master (accepts : BuildPodInfo → Bool) (pods : List Pod)
    (c : Catalog) (create : String → Except String (Option PipelineRunInfo))
    (prNames : List String) (pc : PipeCatalog) :
    (loadBuilds accepts pods = Except.ok c →
      c.defaultName =
        ((((SortBuildPodInfos (legacyBuildInfos accepts pods)).filter
          (fun b => b.branch == "master")).getLast?).map displayName).getD "")
    ∧ (∀ infos, collectPipelineRunInfos create prNames = Except.ok infos →
        loadPipelines create prNames = Except.ok pc →
        pc.defaultName =
          ((((SortPipelineRunInfos infos).filter
            (fun b => b.branch == "master")).getLast?).map prDisplayName).getD "") := by
  constructor
  · intro h
    by_cases he : (SortBuildPodInfos (legacyBuildInfos accepts pods)).isEmpty
    · simp [loadBuilds, he] at h
    · simp only [loadBuilds, he, Bool.false_eq_true, if_false, Except.ok.injEq] at h
      subst h
      exact foldl_addBuild_defaultName _ _
  · intro infos hinfos h
    by_cases he : (SortPipelineRunInfos infos).isEmpty
    · simp [loadPipelines, hinfos, he] at h
    · simp only [loadPipelines, hinfos, he, Bool.false_eq_true, if_false,
        Except.ok.injEq] at h
      subst h
      exact foldl_addPipelineRun_defaultName _ _

/-- Witness for C2 (amended) at the two-master-descriptor catalogs of both loaders. -/
theorem load_defaultName_last_master_witness :
    demoCatalog.defaultName =
      ((((SortBuildPodInfos (legacyBuildInfos (fun _ => true) [podBuild1, podBuild2])).filter
        (fun b => b.branch == "master")).getLast?).map displayName).getD ""
    ∧ demoPipeCatalog.defaultName =
        ((((SortPipelineRunInfos [demoPRI, demoPRI2]).filter
          (fun b => b.branch == "master")).getLast?).map prDisplayName).getD "" := by
  have h := load_defaultName_last_master (fun _ => true) [podBuild1, podBuild2] demoCatalog
    masterCreate ["r1", "r2"] demoPipeCatalog
  exact ⟨h.1 rfl, h.2 [demoPRI, demoPRI2] rfl rfl⟩

/-- Demo `CreatePipelineRunInfo` oracle: fails on the item named "bad", succeeds with
`demoPRI` on every other item. -/
def demoCreate : String → Except String (Option PipelineRunInfo) := fun pr =>
  if pr == "bad" then Except.error "boom" else Except.ok (some demoPRI)

/-- C3 (counterexample): the claim states that a per-item construction failure is
dropped and the load continues, failing only when every item fails. On the item
list ["good", "bad", "also"], where only "bad" fails, the code aborts the whole
load with that item's error and never processes "also". -/
theorem loadPipelines_aborts_on_single_failure :
    loadPipelines demoCreate ["good", "bad", "also"] =
      Except.error "Error creating PipelineRunInfo for PipelineRun bad: boom"
    ∧ demoCreate "good" = Except.ok (some demoPRI)
    ∧ demoCreate "also" = Except.ok (some demoPRI) :=
  ⟨rfl, rfl, rfl⟩

/-- C3 (amended): a query failure while constructing the Build Descriptor for a
single catalog item is logged and aborts the whole load immediately with that
item's wrapped error; the items after it are not processed, and the load fails
even when every other item would succeed. -/
theorem loadPipelines_first_failure_fatal (create : String → Except String (Option PipelineRunInfo))
    (pre post : List String) (pr e : String)
    (hpre : ∀ q ∈ pre, ∃ r, create q = Except.ok r)
    (hpr : create pr = Except.error e) :
    loadPipelines create (pre ++ pr :: post) =
      Except.error ("Error creating PipelineRunInfo for PipelineRun " ++ pr ++ ": " ++ e) := by
  have hcollect : ∀ pre2 : List String, (∀ q ∈ pre2, ∃ r, create q = Except.ok r) →
      collectPipelineRunInfos create (pre2 ++ pr :: post) =
        Except.error ("Error creating PipelineRunInfo for PipelineRun " ++ pr ++ ": " ++ e) := by
    intro pre2 hpre2
    induction pre2 with
    | nil => simp [collectPipelineRunInfos, hpr]
    | cons q rest ih =>
      obtain ⟨r, hr⟩ := hpre2 q (List.mem_cons_self _ _)
      have hrest := ih (fun x hx => hpre2 x (List.mem_cons_of_mem _ hx))
      cases r with
      | none => simp [collectPipelineRunInfos, hr, hrest]
      | some pri => simp [collectPipelineRunInfos, hr, hrest]
  unfold loadPipelines
  rw [hcollect pre hpre]

/-- Witness for C3 (amended): only "bad" fails, yet the whole load aborts with its error. -/
theorem loadPipelines_first_failure_fatal_witness :
    loadPipelines demoCreate (["good"] ++ "bad" :: ["also"]) =
      Except.error ("Error creating PipelineRunInfo for PipelineRun " ++ "bad" ++ ": " ++ "boom") :=
  loadPipelines_first_failure_fatal demoCreate ["good"] ["also"] "bad" "boom"
    (by
      intro q hq
      simp at hq
      subst hq
      exact ⟨some demoPRI, rfl⟩)
    rfl

/-- The failure propagation check emits nothing when the snapshot's status list does
not extend past the current unit index (the `i < len(icStatuses)` guard fails). -/
theorem failureCheck_skip (pod : Pod) (i : Nat)
    (h : pod.initContainerStatuses.length ≤ i) : failurePropagationCheck pod i = [] := by
  unfold failurePropagationCheck
  by_cases h0 : 0 < i
  · rw [if_pos h0, dif_neg (by omega)]
  · rw [if_neg h0]

/-- C9: the failure-propagation check reads status `i-1` only under the guards
`i > 0` and `i < length(initContainerStatuses)`, so the read is always in bounds
(the optional lookup at `i-1` is `some`); whenever the status list has `i` or fewer
entries (or `i = 0`) the check yields no warning at all, regardless of the recorded
statuses. -/
theorem failurePropagationCheck_guarded (pod : Pod) (i : Nat) :
    ((pod.initContainerStatuses.length ≤ i ∨ i = 0) → failurePropagationCheck pod i = [])
    ∧ (0 < i → i < pod.initContainerStatuses.length →
        ∃ s, pod.initContainerStatuses.get? (i - 1) = some s ∧
          failurePropagationCheck pod i =
            (match s.terminated with
             | some t =>
               if t.exitCode ≠ 0 then [Event.warn s.name t.exitCode t.message] else []
             | none => [])) := by
  constructor
  · intro hcase
    rcases hcase with hle | rfl
    · exact failureCheck_skip pod i hle
    · rfl
  · intro h0 hlt
    refine ⟨pod.initContainerStatuses.get ⟨i - 1, by omega⟩, List.get?_eq_get _, ?_⟩
    unfold failurePropagationCheck
    rw [if_pos h0, dif_pos hlt]

/-- Demo containers named a, b, c (the claim C4 example). -/
def containerA : Container := { name := "a" }

/-- Demo container b. -/
def containerB : Container := { name := "b" }

/-- Demo container c. -/
def containerC : Container := { name := "c" }

/-- Status of container a: started, then terminated with exit code 1. -/
def statusFailedA : ContainerStatus :=
  { name := "a", started := true, terminated := some { exitCode := 1, message := "bang" } }

/-- Status of container b: started, not terminated. -/
def statusOkB : ContainerStatus := { name := "b", started := true, terminated := none }

/-- Failed pod with two init containers whose status list records only the first
one (which terminated with a non-zero exit code). -/
def podShort : Pod :=
  { name := "podS", phase := PodPhase.Failed, initContainers := [containerA, containerB]
    initContainerStatuses := [statusFailedA], pipeline := "p", build := 3, branch := "master" }

/-- Failed pod with two init containers and a full status list: the first terminated
with a non-zero exit code, the second started. -/
def podFull : Pod :=
  { name := "podF", phase := PodPhase.Failed, initContainers := [containerA, containerB]
    initContainerStatuses := [statusFailedA, statusOkB], pipeline := "p", build := 3
    branch := "master" }

/-- Witness for C9: on `podShort` (status list of length 1) the check at unit 1 is
silently skipped although status 0 records a failure; on `podFull` the guarded read
at unit 1 is in bounds and yields the warning branch. -/
theorem failurePropagationCheck_guarded_witness :
    failurePropagationCheck podShort 1 = []
    ∧ ∃ s, podFull.initContainerStatuses.get? 0 = some s ∧
        failurePropagationCheck podFull 1 =
          (match s.terminated with
           | some t => if t.exitCode ≠ 0 then [Event.warn s.name t.exitCode t.message] else []
           | none => []) :=
  ⟨(failurePropagationCheck_guarded podShort 1).1 (Or.inl (by decide)),
   (failurePropagationCheck_guarded podFull 1).2 (by decide) (by decide)⟩

/-! Trace characterization of the traversal under a ready cluster. -/

/-- A wait on a pod that is already `Failed`, or whose target container already
started, returns that pod immediately, for every poll oracle and every fuel. -/
theorem waitFor_immediate (g : Nat → String → Except String Pod) (pod : Pod)
    (idx fuel : Nat)
    (h : pod.phase = PodPhase.Failed ∨ HasInitContainerStarted pod idx = true) :
    waitForInitContainerToStart g pod idx fuel = some (Except.ok pod) := by
  unfold waitForInitContainerToStart
  rcases h with h | h
  · rw [if_pos h]
  · by_cases hp : pod.phase = PodPhase.Failed
    · rw [if_pos hp]
    · rw [if_neg hp, if_pos h]

/-- On a constant ready snapshot (every unit's container started, or the pod failed)
and an error-free log tail, the per-container loop completes and its trace is the
per-unit concatenation `traceFrom`. -/
theorem runInitContainers_ok (cluster : String → Except String Pod)
    (tailLogs : String → String → Except String Unit) (fuel : Nat)
    (buildName stageName podName : String) (p' : Pod)
    (hc : cluster podName = Except.ok p')
    (htail : ∀ x y, tailLogs x y = Except.ok ()) :
    ∀ (cs : List Container) (i : Nat),
      (∀ j, i ≤ j → j < i + cs.length →
        p'.phase = PodPhase.Failed ∨ HasInitContainerStarted p' j = true) →
      runInitContainers cluster tailLogs fuel buildName stageName podName i cs =
        (traceFrom p' buildName stageName podName i cs, some (Except.ok ())) := by
  intro cs
  induction cs with
  | nil => intro i _; rfl
  | cons ic rest ih =>
    intro i h
    have hwait := waitFor_immediate (fun _ n => cluster n) p' i fuel
      (h i le_rfl (by simp))
    have hrec := ih (i + 1) (fun j hj1 hj2 => h j (by omega) (by simp at hj2 ⊢; omega))
    simp only [runInitContainers, hc, hwait, htail, hrec, traceFrom]

/-- Stage-loop trace characterization: when every stage's pod is already set, has at
least one init container, and the cluster returns a ready snapshot for it, the
whole traversal completes and its trace is the stage-order concatenation of the
per-stage unit traces. `podOf` names each stage's declared pod and `snapOf` the
snapshot the cluster serves for it. -/
theorem runStages_ok (cluster : String → Except String Pod)
    (tailLogs : String → String → Except String Unit) (backfill : String → Option Pod)
    (fuel : Nat) (buildName : String) (podOf snapOf : StageInfo → Pod)
    (htail : ∀ x y, tailLogs x y = Except.ok ()) :
    ∀ stages : List StageInfo,
      (∀ st ∈ stages, st.pod = some (podOf st)) →
      (∀ st ∈ stages, (podOf st).initContainers ≠ []) →
      (∀ st ∈ stages, cluster (podOf st).name = Except.ok (snapOf st)) →
      (∀ st ∈ stages, ∀ j, j < (podOf st).initContainers.length →
        (snapOf st).phase = PodPhase.Failed ∨ HasInitContainerStarted (snapOf st) j = true) →
      runStages cluster tailLogs backfill fuel buildName stages =
        (stages.flatMap (fun st =>
          traceFrom (snapOf st) buildName st.name (podOf st).name 0 (podOf st).initContainers),
         some (Except.ok ())) := by
  intro stages
  induction stages with
  | nil => intro _ _ _ _; rfl
  | cons st rest ih =>
    intro h1 h2 h3 h4
    have hpod := h1 st (List.mem_cons_self _ _)
    have hne := h2 st (List.mem_cons_self _ _)
    have hresolve : resolveStagePod backfill st = Except.ok (podOf st) := by
      unfold resolveStagePod
      rw [hpod]
    have hempty : (podOf st).initContainers.isEmpty = false := by
      simp [List.isEmpty_iff, hne]
    have hrun := runInitContainers_ok cluster tailLogs fuel buildName st.name (podOf st).name
      (snapOf st) (h3 st (List.mem_cons_self _ _)) htail (podOf st).initContainers 0
      (fun j _ hj => h4 st (List.mem_cons_self _ _) j (by omega))
    have hrest := ih (fun x hx => h1 x (List.mem_cons_of_mem _ hx))
      (fun x hx => h2 x (List.mem_cons_of_mem _ hx))
      (fun x hx => h3 x (List.mem_cons_of_mem _ hx))
      (fun x hx => h4 x (List.mem_cons_of_mem _ hx))
    simp only [runStages, hresolve, hempty, hrun, hrest, List.flatMap_cons, Bool.false_eq_true,
      if_false]

/-- `unitsOf` splits over concatenation. -/
theorem unitsOf_append (a b : List Event) : unitsOf (a ++ b) = unitsOf a ++ unitsOf b :=
  List.filterMap_append _ _ _

/-- The failure propagation check emits only warnings, which are not units. -/
theorem unitsOf_failureCheck (p : Pod) (i : Nat) :
    unitsOf (failurePropagationCheck p i) = [] := by
  unfold failurePropagationCheck
  repeat' split
  all_goals rfl

/-- The units of a per-stage trace are that stage's containers in declaration order. -/
theorem unitsOf_traceFrom (p' : Pod) (buildName stageName podName : String) :
    ∀ (cs : List Container) (i : Nat),
      unitsOf (traceFrom p' buildName stageName podName i cs) =
        cs.map (fun ic => (stageName, ic.name)) := by
  intro cs
  induction cs with
  | nil => intro i; rfl
  | cons ic rest ih =>
    intro i
    simp only [traceFrom, unitsOf_append, unitsOf_failureCheck, ih, List.map_cons]
    rfl

/-- The units of the whole stage-ordered trace are the stage-order concatenation of
each stage's containers. -/
theorem unitsOf_bind_traceFrom (buildName : String) (podOf snapOf : StageInfo → Pod) :
    ∀ stages : List StageInfo,
      unitsOf (stages.flatMap (fun st =>
          traceFrom (snapOf st) buildName st.name (podOf st).name 0 (podOf st).initContainers)) =
        stages.flatMap (fun st => (podOf st).initContainers.map (fun ic => (st.name, ic.name))) := by
  intro stages
  induction stages with
  | nil => rfl
  | cons st rest ih =>
    simp only [List.flatMap_cons, unitsOf_append, unitsOf_traceFrom, ih]

/-- C4: for every pipeline-run descriptor whose stages all have a pod with at least
one init container and a ready cluster snapshot (each unit's container already
started, or the pod failed), and an error-free log tail, the traversal completes
and the global visiting order of (stage, container) units is exactly the
concatenation, in stage-declaration order, of each stage's init containers in
declaration order; the full trace equality moreover shows each unit's wait begins
only after the previous unit's stream event, i.e. streams are strictly sequential. -/
theorem prow_visiting_order (cluster : String → Except String Pod)
    (tailLogs : String → String → Except String Unit) (backfill : String → Option Pod)
    (fuel : Nat) (buildName : String) (podOf : StageInfo → Pod) (stages : List StageInfo)
    (h1 : ∀ st ∈ stages, st.pod = some (podOf st))
    (h2 : ∀ st ∈ stages, (podOf st).initContainers ≠ [])
    (h3 : ∀ st ∈ stages, cluster (podOf st).name = Except.ok (podOf st))
    (h4 : ∀ st ∈ stages, ∀ j, j < (podOf st).initContainers.length →
      (podOf st).phase = PodPhase.Failed ∨ HasInitContainerStarted (podOf st) j = true)
    (htail : ∀ x y, tailLogs x y = Except.ok ()) :
    runStages cluster tailLogs backfill fuel buildName stages =
      (stages.flatMap (fun st =>
        traceFrom (podOf st) buildName st.name (podOf st).name 0 (podOf st).initContainers),
       some (Except.ok ()))
    ∧ unitsOf (runStages cluster tailLogs backfill fuel buildName stages).1 =
        stages.flatMap (fun st => (podOf st).initContainers.map (fun ic => (st.name, ic.name))) := by
  have h := runStages_ok cluster tailLogs backfill fuel buildName podOf podOf htail stages
    h1 h2 h3 h4
  refine ⟨h, ?_⟩
  rw [h]
  exact unitsOf_bind_traceFrom buildName podOf podOf stages

/-- Started status for container a. -/
def statusStartedA : ContainerStatus := { name := "a", started := true, terminated := none }

/-- Started status for container b. -/
def statusStartedB : ContainerStatus := { name := "b", started := true, terminated := none }

/-- Started status for container c. -/
def statusStartedC : ContainerStatus := { name := "c", started := true, terminated := none }

/-- Pod backing the "Build" stage of the C4 example, containers [a, b], both started. -/
def podBuildStage : Pod :=
  { name := "pb", phase := PodPhase.Running, initContainers := [containerA, containerB]
    initContainerStatuses := [statusStartedA, statusStartedB], pipeline := "demo", build := 1
    branch := "master" }

/-- Pod backing the "Test" stage of the C4 example, containers [c], started. -/
def podTestStage : Pod :=
  { name := "pt", phase := PodPhase.Running, initContainers := [containerC]
    initContainerStatuses := [statusStartedC], pipeline := "demo", build := 1
    branch := "master" }

/-- The "Build" stage of the C4 example. -/
def stBuild : StageInfo := { name := "Build", pod := some podBuildStage }

/-- The "Test" stage of the C4 example. -/
def stTest : StageInfo := { name := "Test", pod := some podTestStage }

/-- Cluster serving the two demo stage pods by name. -/
def c4cluster : String → Except String Pod := fun n =>
  if n == "pb" then Except.ok podBuildStage else Except.ok podTestStage

/-- Log tail oracle that always succeeds. -/
def okTail : String → String → Except String Unit := fun _ _ => Except.ok ()

/-- Pod assignment of the C4 example stages. -/
def c4podOf : StageInfo → Pod := fun st =>
  if st.name == "Build" then podBuildStage else podTestStage

/-- Witness for C4 at the claim's own example, stages [Build(a, b), Test(c)]: the
visiting order is [Build/a, Build/b, Test/c]. -/
theorem prow_visiting_order_witness :
    runStages c4cluster okTail (fun _ => none) 0 "demo #1" [stBuild, stTest] =
      ([stBuild, stTest].flatMap (fun st =>
        traceFrom (c4podOf st) "demo #1" st.name (c4podOf st).name 0 (c4podOf st).initContainers),
       some (Except.ok ()))
    ∧ unitsOf (runStages c4cluster okTail (fun _ => none) 0 "demo #1" [stBuild, stTest]).1 =
        [("Build", "a"), ("Build", "b"), ("Test", "c")] := by
  have h := prow_visiting_order c4cluster okTail (fun _ => none) 0 "demo #1" c4podOf
    [stBuild, stTest]
    (by intro st hst; fin_cases hst <;> rfl)
    (by intro st hst; fin_cases hst <;> decide)
    (by intro st hst; fin_cases hst <;> rfl)
    (by intro st hst; fin_cases hst <;> decide)
    (fun _ _ => rfl)
  refine ⟨h.1, ?_⟩
  rw [h.2]
  rfl

/-- Cluster serving `podShort` for every name. -/
def shortCluster : String → Except String Pod := fun _ => Except.ok podShort

/-- Single stage backed by `podShort`. -/
def stShort : StageInfo := { name := "Build", pod := some podShort }

/-- C5 (counterexample): unit 0 of `podShort` is recorded in the most recent snapshot
as terminated with exit code 1, yet the traversal of units [a, b] emits no warning
at all before unit 1, because the snapshot's status list has exactly 1 entry and
the code's guard requires `i < len(initContainerStatuses)`. -/
theorem warning_skipped_on_short_status_list :
    runStages shortCluster okTail (fun _ => none) 0 "bld" [stShort] =
      ([Event.waitStart "podS" 0, Event.stream "bld" "Build" "podS" "a",
        Event.waitStart "podS" 1, Event.stream "bld" "Build" "podS" "b"],
       some (Except.ok ()))
    ∧ podShort.initContainerStatuses.get? 0 = some statusFailedA
    ∧ statusFailedA.terminated = some { exitCode := 1, message := "bang" }
    ∧ (1 : Int) ≠ 0
    ∧ ((runStages shortCluster okTail (fun _ => none) 0 "bld" [stShort]).1.count
        (Event.warn "a" 1 "bang")) = 0 :=
  ⟨rfl, rfl, rfl, by decide, rfl⟩

/-- Warnings in a per-stage trace come only from the failure propagation checks: the
count of a warning event over `traceFrom` is the sum of its counts over the per-unit
checks. -/
theorem count_warn_traceFrom (p' : Pod) (buildName stageName podName : String)
    (n : String) (x : Int) (m : String) :
    ∀ (cs : List Container) (i : Nat),
      (traceFrom p' buildName stageName podName i cs).count (Event.warn n x m) =
        ((List.range' i cs.length).map
          (fun j => (failurePropagationCheck p' j).count (Event.warn n x m))).sum := by
  intro cs
  induction cs with
  | nil => intro i; rfl
  | cons ic rest ih =>
    intro i
    simp only [traceFrom, List.count_append, ih, List.length_cons, List.range'_succ,
      List.map_cons, List.sum_cons]
    have hmid : [Event.waitStart podName i,
        Event.stream buildName stageName p'.name ic.name].count (Event.warn n x m) = 0 := by
      simp [List.count_cons]
    rw [hmid]
    omega

/-- Sum over a contiguous index range of a function that is 1 at a single index in
the range and 0 elsewhere. -/
theorem sum_single_range' (f : Nat → Nat) (i : Nat) :
    ∀ (L s : Nat), s ≤ i → i < s + L → (∀ j, j ≠ i → f j = 0) → f i = 1 →
      ((List.range' s L).map f).sum = 1 := by
  intro L
  induction L with
  | zero => intro s h1 h2 _ _; omega
  | succ L ih =>
    intro s h1 h2 h0 hfi
    rw [List.range'_succ, List.map_cons, List.sum_cons]
    by_cases hs : s = i
    · subst hs
      rw [hfi]
      have hz : ∀ y ∈ (List.range' (s + 1) L).map f, y = 0 := by
        intro y hy
        rcases List.mem_map.1 hy with ⟨j, hj, rfl⟩
        rcases List.mem_range'_1.1 hj with ⟨hj1, _⟩
        exact h0 j (by omega)
      rw [List.sum_eq_zero hz]
      omega
    · rw [h0 s hs]
      rw [Nat.zero_add]
      exact ih (s + 1) (by omega) (by omega) h0 hfi

/-- C5 (amended): for every unit index `i > 0` of a stage whose snapshot records unit
`i-1` as terminated with a non-zero exit code AND whose status list extends past
index `i`, the warning carrying that unit's name, exit code and message is the
failure-propagation output of unit `i` — placed in the trace immediately before
unit `i`'s wait — the traversal still completes every unit, and (when no other unit's
check fires) the warning appears exactly once in the whole trace. -/
theorem warning_before_next_unit (cluster : String → Except String Pod)
    (tailLogs : String → String → Except String Unit) (backfill : String → Option Pod)
    (fuel : Nat) (buildName : String) (st : StageInfo) (p p' : Pod) (i : Nat)
    (s : ContainerStatus) (t : TerminatedState)
    (hpod : st.pod = some p) (hne : p.initContainers ≠ [])
    (hc : cluster p.name = Except.ok p')
    (hready : ∀ j, j < p.initContainers.length →
      p'.phase = PodPhase.Failed ∨ HasInitContainerStarted p' j = true)
    (htail : ∀ x y, tailLogs x y = Except.ok ())
    (hi0 : 0 < i) (hiu : i < p.initContainers.length)
    (hlen : i < p'.initContainerStatuses.length)
    (hs : p'.initContainerStatuses.get? (i - 1) = some s)
    (hterm : s.terminated = some t) (hexit : t.exitCode ≠ 0) :
    runStages cluster tailLogs backfill fuel buildName [st] =
      (traceFrom p' buildName st.name p.name 0 p.initContainers, some (Except.ok ()))
    ∧ failurePropagationCheck p' i = [Event.warn s.name t.exitCode t.message]
    ∧ ((∀ j, j ≠ i → failurePropagationCheck p' j = []) →
        (traceFrom p' buildName st.name p.name 0 p.initContainers).count
          (Event.warn s.name t.exitCode t.message) = 1) := by
  have hcheck : failurePropagationCheck p' i = [Event.warn s.name t.exitCode t.message] := by
    unfold failurePropagationCheck
    rw [if_pos hi0, dif_pos hlen]
    rw [List.get?_eq_get (show i - 1 < p'.initContainerStatuses.length by omega)] at hs
    cases hs
    rw [hterm]
    simp [hexit]
  refine ⟨?_, hcheck, ?_⟩
  · have h := runStages_ok cluster tailLogs backfill fuel buildName (fun _ => p) (fun _ => p')
      htail [st] (by intro x hx; rw [List.mem_singleton] at hx; subst hx; exact hpod)
      (by intro x hx; exact hne)
      (by intro x hx; rw [List.mem_singleton] at hx; subst hx; exact hc)
      (by intro x hx j hj; exact hready j hj)
    rw [h]
    simp
  · intro hothers
    rw [count_warn_traceFrom]
    exact sum_single_range'
      (fun j => (failurePropagationCheck p' j).count (Event.warn s.name t.exitCode t.message))
      i p.initContainers.length 0 (by omega) (by omega)
      (fun j hj => by
        show List.count (Event.warn s.name t.exitCode t.message)
          (failurePropagationCheck p' j) = 0
        rw [hothers j hj]
        rfl)
      (by
        show List.count (Event.warn s.name t.exitCode t.message)
          (failurePropagationCheck p' i) = 1
        rw [hcheck]
        simp)

/-- Cluster serving `podFull` for every name. -/
def fullCluster : String → Except String Pod := fun _ => Except.ok podFull

/-- Single stage backed by `podFull`. -/
def stFull : StageInfo := { name := "Build", pod := some podFull }

/-- Witness for C5 (amended) on `podFull`: unit 0 terminated with exit code 1 and the
status list extends past unit 1, so the warning fires exactly once and traversal
completes both units. -/
theorem warning_before_next_unit_witness :
    runStages fullCluster okTail (fun _ => none) 0 "bld" [stFull] =
      (traceFrom podFull "bld" "Build" podFull.name 0 podFull.initContainers,
       some (Except.ok ()))
    ∧ failurePropagationCheck podFull 1 = [Event.warn "a" 1 "bang"]
    ∧ (traceFrom podFull "bld" "Build" podFull.name 0 podFull.initContainers).count
        (Event.warn "a" 1 "bang") = 1 := by
  have h := warning_before_next_unit fullCluster okTail (fun _ => none) 0 "bld" stFull
    podFull podFull 1 statusFailedA { exitCode := 1, message := "bang" }
    rfl (by decide) rfl (by decide) (fun _ _ => rfl) (by decide) (by decide) (by decide)
    rfl rfl (by decide)
  have hothers : ∀ j, j ≠ 1 → failurePropagationCheck podFull j = [] := by
    intro j hj
    match j with
    | 0 => rfl
    | 1 => exact absurd rfl hj
    | (k + 2) =>
      exact failureCheck_skip podFull (k + 2)
        (by
          have h2 : podFull.initContainerStatuses.length = 2 := rfl
          omega)
  exact ⟨h.1, h.2.1, h.2.2 hothers⟩

/-- C8: a resolved pod (a stage's known pod, or the legacy descriptor's pod) with an
empty init-container list makes the traversal fail with the `NoInitContainers`
error naming the pod and the build, and the failure is terminal: the trace is empty
and no unit of that stage or any later stage (or of the legacy pod) is visited. -/
theorem noInitContainers_terminal (cluster : String → Except String Pod)
    (tailLogs : String → String → Except String Unit) (backfill : String → Option Pod)
    (fuel : Nat) (buildName : String) (st : StageInfo) (rest : List StageInfo) (p : Pod)
    (legacyName : String) (b : BuildPodInfo) (pod : Pod) :
    (resolveStagePod backfill st = Except.ok p → p.initContainers = [] →
      runStages cluster tailLogs backfill fuel buildName (st :: rest) =
        ([], some (Except.error (LogErr.noInitContainers p.name buildName))))
    ∧ (b.pod = some pod → pod.initContainers = [] →
        runLegacy cluster tailLogs fuel legacyName b =
          ([], some (Except.error (LogErr.noInitContainers pod.name legacyName)))) := by
  constructor
  · intro hres hnil
    simp only [runStages, hres, hnil]
    rfl
  · intro hpod hnil
    simp only [runLegacy, hpod, hnil]
    rfl

/-- Pod with an empty init-container list. -/
def podEmpty : Pod :=
  { name := "pe", phase := PodPhase.Running, initContainers := []
    initContainerStatuses := [], pipeline := "p", build := 9, branch := "master" }

/-- Stage backed by the empty pod. -/
def stEmpty : StageInfo := { name := "S", pod := some podEmpty }

/-- Legacy descriptor backed by the empty pod. -/
def bEmpty : BuildPodInfo :=
  { pipeline := "p", build := 9, branch := "master", pod := some podEmpty }

/-- Witness for C8: both the stage path and the legacy path abort immediately with
`NoInitContainers` on the empty pod, visiting nothing (the later stage `stTest` is
never reached). -/
theorem noInitContainers_terminal_witness :
    runStages c4cluster okTail (fun _ => none) 0 "bld" [stEmpty, stTest] =
      ([], some (Except.error (LogErr.noInitContainers "pe" "bld")))
    ∧ runLegacy c4cluster okTail 0 "nm" bEmpty =
        ([], some (Except.error (LogErr.noInitContainers "pe" "nm"))) := by
  have h := noInitContainers_terminal c4cluster okTail (fun _ => none) 0 "bld" stEmpty
    [stTest] podEmpty "nm" bEmpty podEmpty
  exact ⟨h.1 rfl rfl, h.2 rfl rfl⟩

/-- When every poll tick keeps answering a snapshot whose target container has not
started, the poll loop never produces a result (and in particular never a timeout
error): it is still polling when any finite fuel runs out. -/
theorem pollForStart_never_started (g : Nat → String → Except String Pod)
    (nm : String) (idx : Nat)
    (h : ∀ tt, ∃ q, g tt nm = Except.ok q ∧ HasInitContainerStarted q idx = false) :
    ∀ fuel t, pollForStart g nm idx t fuel = none := by
  intro fuel
  induction fuel with
  | zero => intro t; rfl
  | succ n ih =>
    intro t
    obtain ⟨q, hq, hqs⟩ := h t
    simp only [pollForStart, hq, hqs, ih]
    rfl

/-- When the first `k` polls answer not-started snapshots and poll `k` (counted from
the loop's start tick `t`) answers a snapshot with the container started, the loop
returns exactly that snapshot, given fuel beyond `k`. -/
theorem pollForStart_finds (g : Nat → String → Except String Pod) (nm : String) (idx : Nat) :
    ∀ (k t fuel : Nat) (p' : Pod), k < fuel →
      (∀ j, j < k → ∃ q, g (t + j) nm = Except.ok q ∧ HasInitContainerStarted q idx = false) →
      g (t + k) nm = Except.ok p' → HasInitContainerStarted p' idx = true →
      pollForStart g nm idx t fuel = some (Except.ok p') := by
  intro k
  induction k with
  | zero =>
    intro t fuel p' hf _ hg hs
    cases fuel with
    | zero => omega
    | succ n =>
      rw [Nat.add_zero] at hg
      simp only [pollForStart, hg, hs]
      rfl
  | succ k ih =>
    intro t fuel p' hf hpre hg hs
    cases fuel with
    | zero => omega
    | succ n =>
      obtain ⟨q, hq, hqs⟩ := hpre 0 (by omega)
      rw [Nat.add_zero] at hq
      simp only [pollForStart, hq, hqs]
      have hshift : t + (k + 1) = (t + 1) + k := by omega
      rw [hshift] at hg
      exact ih (t + 1) n p' (by omega)
        (fun j hj => by
          have := hpre (j + 1) (by omega)
          have harith : t + (j + 1) = (t + 1) + j := by omega
          rw [harith] at this
          exact this)
        hg hs

/-- C7: `waitForInitContainerToStart` returns the given pod immediately — for every
poll oracle and even zero fuel, hence without polling — when the pod's phase is
already `Failed` or the target container's status already shows it started;
otherwise it polls: if the first started snapshot appears at poll `k` within fuel
it returns exactly that snapshot, and if no poll ever shows the container started
it keeps polling with no timeout (result `none` for every fuel, never an error). -/
theorem awaitStart_behavior (g : Nat → String → Except String Pod) (pod : Pod)
    (idx fuel : Nat) :
    (pod.phase = PodPhase.Failed →
      waitForInitContainerToStart g pod idx fuel = some (Except.ok pod))
    ∧ (HasInitContainerStarted pod idx = true →
      waitForInitContainerToStart g pod idx fuel = some (Except.ok pod))
    ∧ (pod.phase ≠ PodPhase.Failed → HasInitContainerStarted pod idx = false →
        ∀ (k : Nat) (p' : Pod), k < fuel →
          (∀ j, j < k → ∃ q, g j pod.name = Except.ok q ∧
            HasInitContainerStarted q idx = false) →
          g k pod.name = Except.ok p' → HasInitContainerStarted p' idx = true →
          waitForInitContainerToStart g pod idx fuel = some (Except.ok p'))
    ∧ (pod.phase ≠ PodPhase.Failed → HasInitContainerStarted pod idx = false →
        (∀ tt, ∃ q, g tt pod.name = Except.ok q ∧ HasInitContainerStarted q idx = false) →
        waitForInitContainerToStart g pod idx fuel = none) := by
  refine ⟨?_, ?_, ?_, ?_⟩
  · intro hp
    exact waitFor_immediate g pod idx fuel (Or.inl hp)
  · intro hst
    exact waitFor_immediate g pod idx fuel (Or.inr hst)
  · intro hp hst k p' hk hpre hg hs
    unfold waitForInitContainerToStart
    rw [if_neg hp, if_neg (by simp [hst])]
    have := pollForStart_finds g pod.name idx k 0 fuel p' hk
      (fun j hj => by simpa using hpre j hj) (by simpa using hg) hs
    exact this
  · intro hp hst hall
    unfold waitForInitContainerToStart
    rw [if_neg hp, if_neg (by simp [hst])]
    exact pollForStart_never_started g pod.name idx hall fuel 0

/-- Pod whose only init container has not started yet. -/
def podWait : Pod :=
  { name := "pw", phase := PodPhase.Running, initContainers := [containerA]
    initContainerStatuses := [{ name := "a", started := false, terminated := none }]
    pipeline := "p", build := 4, branch := "master" }

/-- The same pod observed after its container started. -/
def podWaitStarted : Pod :=
  { name := "pw", phase := PodPhase.Running, initContainers := [containerA]
    initContainerStatuses := [{ name := "a", started := true, terminated := none }]
    pipeline := "p", build := 4, branch := "master" }

/-- Poll oracle: not started at tick 0, started from tick 1 on. -/
def gWait : Nat → String → Except String Pod := fun tt _ =>
  if tt == 0 then Except.ok podWait else Except.ok podWaitStarted

/-- Witness for C7: the failed pod `podFull` short-circuits the wait for any oracle,
and the waiting pod `podWait` is polled until the started snapshot of tick 1. -/
theorem awaitStart_behavior_witness :
    waitForInitContainerToStart gWait podFull 0 0 = some (Except.ok podFull)
    ∧ waitForInitContainerToStart gWait podWait 0 5 = some (Except.ok podWaitStarted) := by
  constructor
  · exact (awaitStart_behavior gWait podFull 0 0).1 rfl
  · refine (awaitStart_behavior gWait podWait 0 5).2.2.1 (by decide) rfl 1 podWaitStarted
      (by decide) ?_ rfl rfl
    intro j hj
    have : j = 0 := by omega
    subst this
    exact ⟨podWait, rfl, rfl⟩

/-- The retry loop returns the first successful attempt: if attempt `k` (within the
budget, counting from start tick `t`) succeeds and every earlier attempt fails, the
loop's result is attempt `k`'s value. -/
theorem retryLoop_ok (f : Nat → Except String α) :
    ∀ (budget t k : Nat) (a : α), t ≤ k → k ≤ t + budget → f k = Except.ok a →
      (∀ j, t ≤ j → j < k → ∃ e, f j = Except.error e) →
      retryLoop f t budget = Except.ok a := by
  intro budget
  induction budget with
  | zero =>
    intro t k a h1 h2 hk _
    have hkt : k = t := by omega
    subst hkt
    simpa [retryLoop] using hk
  | succ n ih =>
    intro t k a h1 h2 hk hpre
    by_cases ht : t = k
    · subst ht
      simp [retryLoop, hk]
    · obtain ⟨e, he⟩ := hpre t le_rfl (by omega)
      simp only [retryLoop, he]
      exact ih (t + 1) k a (by omega) (by omega) hk (fun j hj1 hj2 => hpre j (by omega) hj2)

/-- When every attempt before the last one fails, the retry loop's result is the last
attempt's result (the budget is exhausted and the final attempt stands). -/
theorem retryLoop_exhausts (f : Nat → Except String α) :
    ∀ (budget t : Nat),
      (∀ j, t ≤ j → j < t + budget → ∃ e, f j = Except.error e) →
      retryLoop f t budget = f (t + budget) := by
  intro budget
  induction budget with
  | zero => intro t _; simp [retryLoop]
  | succ n ih =>
    intro t h
    obtain ⟨e, he⟩ := h t le_rfl (by omega)
    simp only [retryLoop, he]
    rw [ih (t + 1) (fun j hj1 hj2 => h j (by omega) (by omega))]
    congr 1
    omega

/-- C6: non-interactive resolution with `wait = true` for an identifier absent from
both (initially empty) catalog indices retries the catalog reload attempt by
attempt: if some attempt `k` within the budget loads a catalog whose indices
contain the identifier (all earlier attempts having failed), resolution succeeds
with that descriptor and its display suffix; if every attempt up to the budget
fails, resolution returns the final attempt's result, which is an error — the
timeout failure after the wait budget is exhausted. -/
theorem resolveNonInteractive_wait (loadAt : Nat → Except String Catalog) (budget : Nat)
    (name : String) (k : Nat) (c : Catalog) (b : BuildPodInfo) (sfx : String) :
    (k ≤ budget → loadAt k = Except.ok c → lookupBuild c name = some (b, sfx) →
      (∀ j, j < k → ∃ e, attemptOnce loadAt name j = Except.error e) →
      resolveNonInteractive loadAt true budget name = Except.ok (b, sfx))
    ∧ ((∀ j, j < budget → ∃ e, attemptOnce loadAt name j = Except.error e) →
        resolveNonInteractive loadAt true budget name = attemptOnce loadAt name budget)
    ∧ ((∀ j, j ≤ budget → ∃ e, attemptOnce loadAt name j = Except.error e) →
        ∃ e, resolveNonInteractive loadAt true budget name = Except.error e) := by
  refine ⟨?_, ?_, ?_⟩
  · intro hk hload hlook hpre
    show retryLoop (attemptOnce loadAt name) 0 budget = Except.ok (b, sfx)
    exact retryLoop_ok _ budget 0 k (b, sfx) (by omega) (by omega)
      (by simp [attemptOnce, hload, hlook])
      (fun j _ hj2 => hpre j hj2)
  · intro hall
    show retryLoop (attemptOnce loadAt name) 0 budget = attemptOnce loadAt name budget
    rw [retryLoop_exhausts _ budget 0 (fun j _ hj2 => hall j (by omega))]
    rw [Nat.zero_add]
  · intro hall
    obtain ⟨e, he⟩ := hall budget le_rfl
    refine ⟨e, ?_⟩
    show retryLoop (attemptOnce loadAt name) 0 budget = Except.error e
    rw [retryLoop_exhausts _ budget 0 (fun j _ hj2 => hall j (by omega))]
    rw [Nat.zero_add]
    exact he

/-- Load oracle: the cluster read fails at tick 0, and from tick 1 on returns the
demo catalog (which gains a descriptor for pipeline "p"). -/
def wLoadAt : Nat → Except String Catalog := fun t =>
  if t == 0 then Except.error "down" else Except.ok demoCatalog

/-- Load oracle that always fails. -/
def badLoadAt : Nat → Except String Catalog := fun _ => Except.error "down"

/-- Witness for C6: with the catalog gaining pipeline "p" at attempt 1 within budget
2, resolution returns its latest descriptor with the " #1" suffix; with a catalog
that never gains it, resolution after the exhausted budget is the last attempt's
error. -/
theorem resolveNonInteractive_wait_witness :
    resolveNonInteractive wLoadAt true 2 "p" =
      Except.ok (CreateBuildPodInfo podBuild1, " #1")
    ∧ resolveNonInteractive badLoadAt true 2 "p" = attemptOnce badLoadAt "p" 2
    ∧ attemptOnce badLoadAt "p" 2 = Except.error "down" := by
  refine ⟨?_, ?_, rfl⟩
  · exact (resolveNonInteractive_wait wLoadAt 2 "p" 1 demoCatalog
      (CreateBuildPodInfo podBuild1) " #1").1 (by omega) rfl rfl
      (by
        intro j hj
        have : j = 0 := by omega
        subst this
        exact ⟨"down", rfl⟩)
  · exact (resolveNonInteractive_wait badLoadAt 2 "p" 0 demoCatalog
      (CreateBuildPodInfo podBuild1) " #1").2.1
      (fun j _ => ⟨"down", rfl⟩)

/-- The poll loop's only error is the wrapped pod-load failure. -/
theorem pollForStart_error_shape (g : Nat → String → Except String Pod) (nm : String)
    (idx : Nat) :
    ∀ (fuel t : Nat) (e : LogErr), pollForStart g nm idx t fuel = some (Except.error e) →
      e = LogErr.podLoadFailed nm := by
  intro fuel
  induction fuel with
  | zero => intro t e h; simp [pollForStart] at h
  | succ n ih =>
    intro t e h
    unfold pollForStart at h
    cases hg : g t nm with
    | error e2 =>
      simp only [hg] at h
      cases h
      rfl
    | ok p =>
      simp only [hg] at h
      by_cases hs : HasInitContainerStarted p idx = true
      · rw [if_pos hs] at h
        simp at h
      · rw [if_neg hs] at h
        exact ih (t + 1) e h

/-- A wait that returns an error returns the wrapped pod-load failure. -/
theorem waitFor_error_shape (g : Nat → String → Except String Pod) (pod : Pod)
    (idx fuel : Nat) (e : LogErr)
    (h : waitForInitContainerToStart g pod idx fuel = some (Except.error e)) :
    e = LogErr.podLoadFailed pod.name := by
  unfold waitForInitContainerToStart at h
  by_cases hp : pod.phase = PodPhase.Failed
  · rw [if_pos hp] at h
    simp at h
  · rw [if_neg hp] at h
    by_cases hs : HasInitContainerStarted pod idx = true
    · rw [if_pos hs] at h
      simp at h
    · rw [if_neg hs] at h
      exact pollForStart_error_shape g pod.name idx fuel 0 e h

/-- The per-container loop can fail with query, load or stream errors, but never with
the `NoInitContainers` error: that one is raised only by the pre-loop check. -/
theorem runInitContainers_no_noInit (cluster : String → Except String Pod)
    (tailLogs : String → String → Except String Unit) (fuel : Nat)
    (buildName stageName podName : String) :
    ∀ (cs : List Container) (i : Nat) (x y : String),
      (runInitContainers cluster tailLogs fuel buildName stageName podName i cs).2 ≠
        some (Except.error (LogErr.noInitContainers x y)) := by
  intro cs
  induction cs with
  | nil => intro i x y h; simp [runInitContainers] at h
  | cons ic rest ih =>
    intro i x y h
    unfold runInitContainers at h
    cases hcl : cluster podName with
    | error e =>
      simp only [hcl] at h
      simp at h
    | ok pod =>
      simp only [hcl] at h
      cases hw : waitForInitContainerToStart (fun _ n => cluster n) pod i fuel with
      | none =>
        simp only [hw] at h
        simp at h
      | some r =>
        cases r with
        | error e =>
          simp only [hw] at h
          simp at h
          have := waitFor_error_shape (fun _ n => cluster n) pod i fuel e hw
          rw [this] at h
          cases h
        | ok pod2 =>
          simp only [hw] at h
          cases htl : tailLogs pod2.name ic.name with
          | error e2 =>
            simp only [htl] at h
            simp at h
          | ok u =>
            simp only [htl] at h
            exact ih (i + 1) x y (by simpa using h)

/-- C10: every legacy descriptor that `loadBuilds` places in the catalog — reachable
through the ordered names, the exact index or the latest-per-pipeline index — was
constructed from a pod with at least one init container (zero-init-container pods
are excluded before filtering and sorting), and the legacy traversal of such a
descriptor can therefore never fail with the `NoInitContainers` error. -/
theorem loadBuilds_catalog_pods_have_initContainers (accepts : BuildPodInfo → Bool)
    (pods : List Pod) (c : Catalog) (h : loadBuilds accepts pods = Except.ok c) :
    (∀ nm ∈ c.names, ∃ b, b ∈ SortBuildPodInfos (legacyBuildInfos accepts pods) ∧
        nm = displayName b ∧ ∃ p, b.pod = some p ∧ p.initContainers ≠ [])
    ∧ (∀ nm b, mapGet c.buildMap nm = some b ∨ mapGet c.pipelineMap nm = some b →
        ∃ p, b.pod = some p ∧ p.initContainers ≠ [])
    ∧ (∀ nm b, mapGet c.buildMap nm = some b ∨ mapGet c.pipelineMap nm = some b →
        ∀ (cluster : String → Except String Pod)
          (tailLogs : String → String → Except String Unit) (fuel : Nat) (bn x y : String),
          (runLegacy cluster tailLogs fuel bn b).2 ≠
            some (Except.error (LogErr.noInitContainers x y))) := by
  have hc : c = (SortBuildPodInfos (legacyBuildInfos accepts pods)).foldl addBuild
      emptyCatalog := by
    by_cases he : (SortBuildPodInfos (legacyBuildInfos accepts pods)).isEmpty
    · simp [loadBuilds, he] at h
    · simp only [loadBuilds, he, Bool.false_eq_true, if_false, Except.ok.injEq] at h
      exact h.symm
  have hS : ∀ b ∈ SortBuildPodInfos (legacyBuildInfos accepts pods),
      ∃ p, b.pod = some p ∧ p.initContainers ≠ [] := fun b hb =>
    mem_legacyBuildInfos accepts pods b (mem_SortBuildPodInfos b _ hb)
  have hmaps : ∀ nm b, mapGet c.buildMap nm = some b ∨ mapGet c.pipelineMap nm = some b →
      ∃ p, b.pod = some p ∧ p.initContainers ≠ [] := by
    intro nm b hb
    rcases hb with hb | hb
    · rcases foldl_addBuild_buildMap_mem _ _ _ _ (hc ▸ hb) with hmem | hget
      · exact hS b hmem
      · simp [mapGet, emptyCatalog] at hget
    · rcases foldl_addBuild_pipelineMap_mem _ _ _ _ (hc ▸ hb) with hmem | hget
      · exact hS b hmem
      · simp [mapGet, emptyCatalog] at hget
  refine ⟨?_, hmaps, ?_⟩
  · intro nm hnm
    rw [hc, foldl_addBuild_names] at hnm
    simp only [emptyCatalog, List.nil_append] at hnm
    rcases List.mem_map.1 hnm with ⟨b, hbmem, rfl⟩
    exact ⟨b, hbmem, rfl, hS b hbmem⟩
  · intro nm b hb cluster tailLogs fuel bn x y
    obtain ⟨p, hp, hne⟩ := hmaps nm b hb
    have hempty : p.initContainers.isEmpty = false := by simp [List.isEmpty_iff, hne]
    simp only [runLegacy, hp, hempty, Bool.false_eq_true, if_false]
    exact runInitContainers_no_noInit cluster tailLogs fuel bn "" p.name p.initContainers 0 x y

/-- Witness for C10 at the demo catalog: the descriptor selected through the
latest-per-pipeline index cannot produce the `NoInitContainers` failure. -/
theorem loadBuilds_catalog_pods_witness :
    (runLegacy c4cluster okTail 0 "nm" (CreateBuildPodInfo podBuild1)).2 ≠
      some (Except.error (LogErr.noInitContainers "pod1" "nm")) :=
  (loadBuilds_catalog_pods_have_initContainers (fun _ => true) [podBuild1, podBuild2]
    demoCatalog rfl).2.2 "p" (CreateBuildPodInfo podBuild1) (Or.inr rfl) c4cluster okTail 0
    "nm" "pod1" "nm"
